import Mathlib

/-!
Verification of `scripts/build_powerplants.py` (pypsa-eur).

A shallow embedding of the powerplant-preparation script: the custom-record
merge stage (`add_custom_powerplants`), the nuclear data correction stage
(`correct_nuclear_data`), and the per-country nearest-substation matching
loop of the `__main__` driver.

DataFrames are embedded as lists of records.  Floating-point coordinates,
capacities and years are embedded as rationals resp. integers; a missing
value (pandas `NaN`) is embedded as `Option.none`.  The scipy `cKDTree`
single-nearest-neighbour query is embedded by an argmin over squared
Euclidean distances, with the documented missing-neighbour convention: a
query point with a missing coordinate (or an empty tree) yields the index
`n` one past the end of the data, which the script maps onto a null
sentinel appended to the substation id list.
-/

namespace BuildPowerplants

/-- One row of the network model's bus table (`n.buses`): the index label
`id`, `country`, planar coordinates `x`/`y` and the low-voltage substation
flag `substation_lv`. -/
structure NetBus where
  id : String
  country : String
  x : ℚ
  y : ℚ
  substation_lv : Bool
  deriving DecidableEq, Repr

/-- One row of the working powerplant table.  Field names follow the
DataFrame columns used by the script; source columns the script never
reads or writes (Technology, Set, duration, dam data, ...) are passthrough
and omitted. -/
structure Plant where
  Name : String
  Fueltype : String
  Country : String
  Capacity : ℚ
  DateIn : Option Int
  lon : Option ℚ
  lat : Option ℚ
  bus : Option String
  deriving DecidableEq, Repr

/-! ## Case-insensitive substring matching

`nuc.Name.str.contains(name, case=False, na=False)`: all patterns occurring
in `correct_nuclear_data` are literal strings without regex metacharacters,
so the pandas call is containment of the lowercased pattern in the
lowercased name. -/

/-- `startsWithCh needle hay`: `needle` is an initial segment of `hay`. -/
def startsWithCh : List Char → List Char → Bool
  | [], _ => true
  | _ :: _, [] => false
  | a :: as, b :: bs => a == b && startsWithCh as bs

/-- `containsCh needle hay`: `needle` occurs contiguously inside `hay`. -/
def containsCh (needle : List Char) : List Char → Bool
  | [] => startsWithCh needle []
  | c :: cs => startsWithCh needle (c :: cs) || containsCh needle cs

/-- Case-insensitive substring test, as performed by
`Series.str.contains(pattern, case=False, na=False)` on the literal
patterns of the correction tables: both sides are lowercased
character-wise and tested for containment. -/
def nameMatches (needle hay : String) : Bool :=
  containsCh (needle.data.map Char.toLower) (hay.data.map Char.toLower)

/-! ## The static nuclear correction tables -/

/-- The `YearCommercial` literal of `correct_nuclear_data`, in declaration
order. -/
def YearCommercial : List (String × Int) :=
  [("St laurent", 1983),
   ("Gravelines", 1985),
   ("Paluel", 1986),
   ("Penly", 1992),
   ("Nogent", 1989),
   ("Golfech", 1994),
   ("St alban", 1987),
   ("Belleville", 1989),
   ("Blayais", 1983),
   ("Cruas", 1985),
   ("Fessenheim", 1978),
   ("Flamanville", 2005),
   ("Dampierre", 1981),
   ("Chinon", 1988),
   ("Bugey", 1980),
   ("Cattenom", 1992),
   ("Chooz", 2000),
   ("Civaux", 2002),
   ("Tricastin", 1981),
   ("Dukovany", 1987),
   ("Temelín", 2003),
   ("Bohunice", 1985),
   ("Mochovce", 2000),
   ("Krško", 1983),
   ("Ringhals", 1983),
   ("Oskarshamn", 1985),
   ("Forsmark", 1985),
   ("Olkiluoto", 2019)]

/-- The `Capacity` literal of `correct_nuclear_data`, in declaration
order. -/
def CapacityTable : List (String × ℚ) :=
  [("St laurent", 1830),
   ("Gravelines", 5460),
   ("Paluel", 5320),
   ("Penly", 2660),
   ("Nogent", 2620),
   ("Golfech", 2620),
   ("St alban", 2670),
   ("Belleville", 2620),
   ("Blayais", 3640),
   ("Cruas", 3660),
   ("Fessenheim", 0),
   ("Flamanville", 4260),
   ("Dampierre", 3560),
   ("Chinon", 3620),
   ("Bugey", 3580),
   ("Cattenom", 5200),
   ("Chooz", 3000),
   ("Civaux", 2990),
   ("Tricastin", 3660),
   ("Ringhals", 2166),
   ("Oskarshamn", 1400),
   ("Forsmark", 3269),
   ("Dukovany", 1878),
   ("Temelín", 2006),
   ("Bohunice", 943),
   ("Mochovce", 872),
   ("Krško", 688),
   ("Olkiluoto", 1600),
   ("Brokdorf", 0),
   ("Emsland", 0),
   ("Grohnde", 0),
   ("Gundremmingen", 0),
   ("Isar", 0),
   ("Neckarwestheim", 0),
   ("Philippsburg", 0),
   ("Biblis", 0),
   ("Unterweser", 0),
   ("Grafenrheinfeld", 0),
   ("Kruemmel", 0)]

/-! ## The nuclear correction stage

In the script, the rows with `Fueltype == "Nuclear"` are copied into `nuc`
(columns Name, DateIn, Capacity); each correction entry overwrites the
target column of every `nuc` row whose Name matches it, in declaration
order, and the column is written back to `ppl` at the nuclear row labels.
Row names are never modified, so per row the net effect on the target
column is a last-match-wins fold over the entries, and an entry updates a
row exactly when the row is nuclear and its Name matches the entry. -/

/-- Effect of a single `YearCommercial` entry `e` on the DateIn value of a
nuclear row named `nm`. -/
def yearStep (nm : String) (acc : Option Int) (e : String × Int) : Option Int :=
  if nameMatches e.1 nm then some e.2 else acc

/-- Effect of a single `Capacity` entry `e` on the Capacity value of a
nuclear row named `nm`. -/
def capStep (nm : String) (acc : ℚ) (e : String × ℚ) : ℚ :=
  if nameMatches e.1 nm then e.2 else acc

/-- DateIn of a nuclear row named `nm` after the first correction loop. -/
def yearAfter (nm : String) (d : Option Int) : Option Int :=
  YearCommercial.foldl (yearStep nm) d

/-- Capacity of a nuclear row named `nm` after the second correction loop. -/
def capAfter (nm : String) (c : ℚ) : ℚ :=
  CapacityTable.foldl (capStep nm) c

/-- The message printed by the `else` branches of `correct_nuclear_data`
for a correction entry that matches no nuclear row (the script wraps the
name in quotes; the surrounding punctuation is elided here). -/
def notFoundMsg (name : String) : String :=
  name ++ " was not found in given DataFrame."

/-- The warnings printed by `correct_nuclear_data`: first one message per
`YearCommercial` entry matching no nuclear row name, then one per
`Capacity` entry matching no nuclear row name.  Matching is always against
the `nuc` frame copied before the loops, whose Name column is never
modified. -/
def nuclearWarnings (ppl : List Plant) : List String :=
  let nucNames := (ppl.filter (fun p => p.Fueltype == "Nuclear")).map Plant.Name
  (YearCommercial.filter
      (fun e => !(nucNames.any (fun nm => nameMatches e.1 nm)))).map (fun e => notFoundMsg e.1)
    ++ (CapacityTable.filter
      (fun e => !(nucNames.any (fun nm => nameMatches e.1 nm)))).map (fun e => notFoundMsg e.1)

/-- Net per-row effect of `correct_nuclear_data`: nuclear rows get their
DateIn and Capacity columns rewritten by the two correction loops, all
other rows are untouched. -/
def correctRow (p : Plant) : Plant :=
  if p.Fueltype == "Nuclear" then
    { p with DateIn := yearAfter p.Name p.DateIn, Capacity := capAfter p.Name p.Capacity }
  else p

/-- `correct_nuclear_data(ppl)`: the corrected table together with the
not-found warnings it prints. -/
def correct_nuclear_data (ppl : List Plant) : List Plant × List String :=
  (ppl.map correctRow, nuclearWarnings ppl)

/-! ## The custom-record merge stage -/

/-- The `electricity: custom_powerplants` configuration value: falsy
(`disabled`), boolean true (`all` custom rows), or a query string
(`query`, embedded as a row predicate). -/
inductive CustomConfig where
  | disabled
  | all
  | query (f : Plant → Bool)

/-- `ignore_index=True`: the concatenated rows receive a fresh
`RangeIndex` `0, 1, 2, ...` regardless of their input index labels. -/
def reindex (rows : List Plant) : List (Nat × Plant) :=
  (List.range rows.length).zip rows

/-- `base.append(custom, sort=False, ignore_index=True,
verify_integrity=True)`: concatenate, reindex with a fresh range, and only
then let `verify_integrity` check the *resulting* index for duplicates,
raising if it finds any. -/
def appendIgnoreIndex (base custom : List (Nat × Plant)) :
    Except String (List (Nat × Plant)) :=
  let res := reindex (base.map Prod.snd ++ custom.map Prod.snd)
  if (res.map Prod.fst).Nodup then .ok res
  else .error "Indexes have overlapping values"

/-- `add_custom_powerplants(ppl)`: falsy config returns the base table
unchanged; a query-string config filters the custom file first; then the
custom rows are appended to the base table. -/
def add_custom_powerplants (cfg : CustomConfig) (ppl customFile : List (Nat × Plant)) :
    Except String (List (Nat × Plant)) :=
  match cfg with
  | .disabled => .ok ppl
  | .all => appendIgnoreIndex ppl customFile
  | .query f => appendIgnoreIndex ppl (customFile.filter (fun r => f r.2))

/-- The base-table restriction
`query('Fueltype not in ["Solar", "Wind"] and Country in @countries')`
applied to the freshly retrieved powerplant database. -/
def basePlantQuery (countries : List String) (ppl : List Plant) : List Plant :=
  ppl.filter (fun p =>
    !(p.Fueltype == "Solar" || p.Fueltype == "Wind") && countries.contains p.Country)

/-! ## The nearest-substation matching loop -/

/-- Squared Euclidean distance between two planar points; comparing squared
distances orders candidates exactly as the `cKDTree` Euclidean metric
does. -/
def sqDist (a b : ℚ × ℚ) : ℚ :=
  (a.1 - b.1) ^ 2 + (a.2 - b.2) ^ 2

/-- Index into `pts` of a point nearest to `q` (the earliest such index on
exact ties, matching a fixed deterministic tie-break); on an empty `pts`
the `cKDTree` has `n = 0` data points and reports the missing-neighbour
index `n`. -/
def nearestIdx (pts : List (ℚ × ℚ)) (q : ℚ × ℚ) : Nat :=
  ((List.range pts.length).argmin (fun i => sqDist q (pts.getD i (0, 0)))).getD pts.length

/-- `kdtree.query(coords)[1]` for a single query row whose coordinates may
be missing: a query point with any missing (`NaN`) coordinate matches no
neighbour, so the query reports the missing-neighbour index
`n = pts.length`. -/
def kdQueryIdx (pts : List (ℚ × ℚ)) (q : Option ℚ × Option ℚ) : Nat :=
  match q with
  | (some lx, some ly) => nearestIdx pts (lx, ly)
  | _ => pts.length

/-- `n.buses.query('substation_lv and country == @c')`: the substations of
country `c` eligible as match targets. -/
def eligibleSubs (buses : List NetBus) (c : String) : List NetBus :=
  buses.filter (fun b => b.substation_lv && b.country == c)

/-- `substation_i.append(pd.Index([np.nan]))[i]`: positional lookup into
the eligible substation ids with a null sentinel appended past the end. -/
def busAt (ids : List String) (i : Nat) : Option String :=
  (ids.map some ++ [none]).getD i none

/-- The bus the loop body assigns to a plant of country `c` located at
`(lon, lat)`. -/
def busFor (buses : List NetBus) (c : String) (lon lat : Option ℚ) : Option String :=
  let subs := eligibleSubs buses c
  busAt (subs.map NetBus.id)
    (kdQueryIdx (subs.map (fun b => (b.x, b.y))) (lon, lat))

/-- One iteration's effect on one plant row of country `c`: only the `bus`
column is written. -/
def assignInCountry (buses : List NetBus) (c : String) (p : Plant) : Plant :=
  { p with bus := busFor buses c p.lon p.lat }

/-- The matching loop `for c in countries: ...`: each iteration rewrites
the `bus` column of exactly the rows with `Country == c`. -/
def matchToSubstations (buses : List NetBus) (countries : List String)
    (ppl : List Plant) : List Plant :=
  countries.foldl
    (fun tbl c => tbl.map (fun p => if p.Country == c then assignInCountry buses c p else p))
    ppl

/-- `n.buses.country.unique()`: the countries present in the network
model, first occurrence order. -/
def networkCountries (buses : List NetBus) : List String :=
  (buses.map NetBus.country).dedup

/-- The two data-completeness warnings the driver logs after the loop:
the countries without any powerplant (`cntries_without_ppl`, computed
before the loop) and the number of plants whose bus is null
(`bus_null_b.sum()`). -/
structure MatchWarnings where
  cntriesWithoutPpl : List String
  busNullCount : Nat
  deriving DecidableEq, Repr

/-- The matching stage of the driver: run the loop over the network's
countries and collect the two warnings. -/
def runMatching (buses : List NetBus) (ppl : List Plant) :
    List Plant × MatchWarnings :=
  let countries := networkCountries buses
  let matched := matchToSubstations buses countries ppl
  (matched,
   { cntriesWithoutPpl := countries.filter (fun c => !(ppl.any (fun p => p.Country == c))),
     busNullCount := (matched.filter (fun p => p.bus == none)).length })

/-- Cumulative effect of the matching loop on one fixed row: the loop body
for country `c` touches the row exactly when its Country equals `c`.  Used
to characterise `matchToSubstations` row by row. -/
def countryFold (buses : List NetBus) : List String → Plant → Plant
  | [], p => p
  | c :: cs, p =>
      countryFold buses cs (if p.Country == c then assignInCountry buses c p else p)

/-! ## Concrete fixtures for witnesses and counterexamples -/

/-- An eligible French substation near (5, 45), the `S1` of the spec's
worked example. -/
def fixS1 : NetBus :=
  { id := "S1", country := "FR", x := 5.01, y := 45.01, substation_lv := true }

/-- An eligible French substation far from (5, 45), the `S2` of the spec's
worked example. -/
def fixS2 : NetBus :=
  { id := "S2", country := "FR", x := 10, y := 50, substation_lv := true }

/-- A French bus that is not flagged `substation_lv`, hence not an eligible
match target. -/
def fixBusNoLv : NetBus :=
  { id := "B1", country := "FR", x := 0, y := 0, substation_lv := false }

/-- A French coal plant at (lon, lat) = (5, 45) with both coordinates
present. -/
def fixFrPlant : Plant :=
  { Name := "P", Fueltype := "Hard Coal", Country := "FR", Capacity := 100,
    DateIn := none, lon := some 5, lat := some 45, bus := none }

/-- A French nuclear plant whose name matches no correction entry and whose
coordinates are both missing. -/
def fixZzPlant : Plant :=
  { Name := "Zzz Station", Fueltype := "Nuclear", Country := "FR",
    Capacity := 100, DateIn := none, lon := none, lat := none, bus := none }

/-- A nuclear row named after the Fessenheim plant, the subject of the
spec's correction example. -/
def fixFessPlant : Plant :=
  { Name := "Fessenheim Unit 1", Fueltype := "Nuclear", Country := "FR",
    Capacity := 880, DateIn := some 1977, lon := some 7, lat := some 47, bus := none }

/-- A custom record whose Country `"XX"` lies outside the network's country
set in the counterexample scenarios. -/
def fixXxPlant : Plant :=
  { Name := "Q", Fueltype := "Hard Coal", Country := "XX", Capacity := 50,
    DateIn := none, lon := some 1, lat := some 2, bus := none }

/-! ## Lemmas: the nuclear correction stage -/

/-- A last-match-wins overwrite fold is idempotent: rerunning the fold on
its own output changes nothing, because each entry either never fires or
overwrites with the same constant. -/
theorem lastWins_idem {α β : Type} (m : α → Bool) (v : α → β) (l : List α) (d : β) :
    l.foldl (fun acc e => if m e then v e else acc)
        (l.foldl (fun acc e => if m e then v e else acc) d)
      = l.foldl (fun acc e => if m e then v e else acc) d := by
  induction l using List.reverseRecOn generalizing d with
  | nil => rfl
  | append_singleton l a ih =>
      by_cases h : m a = true
      · simp [List.foldl_append, h]
      · simp only [List.foldl_append, List.foldl_cons, List.foldl_nil, h,
          Bool.false_eq_true, if_false]
        exact ih d

/-- Rerunning the `YearCommercial` pass on an already corrected DateIn
value yields the same value. -/
theorem yearAfter_idem (nm : String) (d : Option Int) :
    yearAfter nm (yearAfter nm d) = yearAfter nm d := by
  have h := lastWins_idem (fun e : String × Int => nameMatches e.1 nm)
    (fun e => some e.2) YearCommercial d
  simpa [yearAfter, yearStep] using h

/-- Rerunning the `Capacity` pass on an already corrected Capacity value
yields the same value. -/
theorem capAfter_idem (nm : String) (c : ℚ) :
    capAfter nm (capAfter nm c) = capAfter nm c := by
  have h := lastWins_idem (fun e : String × ℚ => nameMatches e.1 nm)
    (fun e => e.2) CapacityTable c
  simpa [capAfter, capStep] using h

/-- The per-row correction is idempotent. -/
theorem correctRow_idem (p : Plant) : correctRow (correctRow p) = correctRow p := by
  by_cases h : (p.Fueltype == "Nuclear") = true
  · simp [correctRow, h, yearAfter_idem, capAfter_idem]
  · simp [correctRow, h]

/-! ## Lemmas: the merge stage -/

/-- The fresh `RangeIndex` really is `0, 1, 2, ...`. -/
theorem reindex_fst (rows : List Plant) :
    (reindex rows).map Prod.fst = List.range rows.length :=
  List.map_fst_zip _ _ (by simp)

/-- The reindexed table keeps all rows. -/
theorem reindex_length (rows : List Plant) :
    (reindex rows).length = rows.length := by
  simp [reindex]

/-- With `ignore_index=True` the `verify_integrity` check inspects the
fresh `RangeIndex`, which never has duplicates, so the append always
succeeds. -/
theorem appendIgnoreIndex_ok (base custom : List (Nat × Plant)) :
    appendIgnoreIndex base custom
      = .ok (reindex (base.map Prod.snd ++ custom.map Prod.snd)) := by
  have h : ((reindex (base.map Prod.snd ++ custom.map Prod.snd)).map Prod.fst).Nodup := by
    rw [reindex_fst]; exact List.nodup_range _
  simp [appendIgnoreIndex, h]

/-! ## Lemmas: the matching loop -/

/-- The loop processes rows independently: folding the per-country map
steps equals mapping the per-row country fold. -/
theorem matchToSubstations_eq_map (buses : List NetBus) (cs : List String)
    (ppl : List Plant) :
    matchToSubstations buses cs ppl = ppl.map (countryFold buses cs) := by
  induction cs generalizing ppl with
  | nil => simp [matchToSubstations, countryFold]
  | cons c cs ih =>
      rw [show matchToSubstations buses (c :: cs) ppl
            = matchToSubstations buses cs
                (ppl.map (fun p => if p.Country == c then assignInCountry buses c p else p))
          from rfl,
        ih, List.map_map]
      rfl

/-- Row-level behaviour of the loop: a row is rewritten exactly when its
country occurs in the processed country list, and the written bus depends
only on the row's Country and coordinates. -/
theorem countryFold_eq (buses : List NetBus) (cs : List String) (p : Plant) :
    countryFold buses cs p
      = if cs.contains p.Country
        then { p with bus := busFor buses p.Country p.lon p.lat }
        else p := by
  induction cs generalizing p with
  | nil => simp [countryFold]
  | cons c cs ih =>
      show countryFold buses cs (if p.Country == c then assignInCountry buses c p else p) = _
      by_cases h : (p.Country == c) = true
      · have hc : p.Country = c := by simpa using h
        subst hc
        rw [if_pos h, ih]
        by_cases h2 : cs.contains p.Country = true
        · simp [assignInCountry, h2, List.contains_cons]
        · simp [assignInCountry, h2, List.contains_cons]
      · rw [if_neg (by simpa using h), ih]
        simp only [List.contains_cons]
        rw [show (p.Country == c) = false by simpa using h]
        simp

/-- The matched table of the driver, row-mapped form. -/
theorem runMatching_fst (buses : List NetBus) (ppl : List Plant) :
    (runMatching buses ppl).1 = ppl.map (countryFold buses (networkCountries buses)) := by
  simp [runMatching, matchToSubstations_eq_map]

/-- The matching stage preserves the number of rows. -/
theorem runMatching_length (buses : List NetBus) (ppl : List Plant) :
    (runMatching buses ppl).1.length = ppl.length := by
  simp [runMatching_fst]

/-- Row `i` of the matched table, characterised in terms of row `i` of the
input table. -/
theorem runMatching_get (buses : List NetBus) (ppl : List Plant) (i : Nat)
    (h1 : i < ppl.length) (h2 : i < (runMatching buses ppl).1.length) :
    (runMatching buses ppl).1.get ⟨i, h2⟩
      = if (networkCountries buses).contains (ppl.get ⟨i, h1⟩).Country
        then { ppl.get ⟨i, h1⟩ with
                bus := busFor buses (ppl.get ⟨i, h1⟩).Country
                  (ppl.get ⟨i, h1⟩).lon (ppl.get ⟨i, h1⟩).lat }
        else ppl.get ⟨i, h1⟩ := by
  have h2' : i < (ppl.map (countryFold buses (networkCountries buses))).length := by
    simpa using h1
  rw [List.get_of_eq (runMatching_fst buses ppl) ⟨i, h2⟩]
  simp only [List.get_eq_getElem, List.getElem_map]
  exact countryFold_eq buses (networkCountries buses) _

/-- Positional lookup into the sentinel-extended id list, in-range case:
the bus is the id at that position. -/
theorem busAt_of_lt (ids : List String) (i : Nat) (h : i < ids.length) :
    busAt ids i = some (ids.get ⟨i, h⟩) := by
  induction ids generalizing i with
  | nil => exact absurd h (by simp)
  | cons a as ih =>
      cases i with
      | zero => rfl
      | succ n => exact ih n (Nat.lt_of_succ_lt_succ h)

/-- Positional lookup into the sentinel-extended id list at position
`ids.length`: exactly the appended null sentinel, no out-of-range access. -/
theorem busAt_length_self (ids : List String) : busAt ids ids.length = none := by
  simp [busAt]

/-- On a nonempty tree, the nearest-neighbour query reports an in-range
index. -/
theorem nearestIdx_lt (pts : List (ℚ × ℚ)) (q : ℚ × ℚ) (h : pts ≠ []) :
    nearestIdx pts q < pts.length := by
  unfold nearestIdx
  cases hc : (List.range pts.length).argmin (fun i => sqDist q (pts.getD i (0, 0))) with
  | none =>
      have h0 := List.argmin_eq_none.mp hc
      rw [List.range_eq_nil] at h0
      exact absurd (List.length_eq_zero.mp h0) h
  | some m =>
      have hm : m ∈ List.range pts.length := List.argmin_mem (Option.mem_def.mpr hc)
      simpa using List.mem_range.mp hm

/-- The point reported by the nearest-neighbour query minimises the squared
Euclidean distance over all data points. -/
theorem nearestIdx_min (pts : List (ℚ × ℚ)) (q : ℚ × ℚ) (j : Nat) (hj : j < pts.length) :
    sqDist q (pts.getD (nearestIdx pts q) (0, 0)) ≤ sqDist q (pts.getD j (0, 0)) := by
  unfold nearestIdx
  cases hc : (List.range pts.length).argmin (fun i => sqDist q (pts.getD i (0, 0))) with
  | none =>
      have h0 := List.argmin_eq_none.mp hc
      rw [List.range_eq_nil] at h0
      omega
  | some m =>
      simpa using
        List.le_of_mem_argmin (List.mem_range.mpr hj) (Option.mem_def.mpr hc)

/-- Coordinates of the `k`-th eligible substation inside the flattened
coordinate list fed to the tree. -/
theorem subsPts_getD (subs : List NetBus) (k : Nat) (hk : k < subs.length) :
    (subs.map (fun b => (b.x, b.y))).getD k (0, 0)
      = ((subs.get ⟨k, hk⟩).x, (subs.get ⟨k, hk⟩).y) := by
  rw [List.getD_eq_getElem _ _ (by simpa using hk)]
  simp

/-- With a nonempty eligible set and both coordinates present, the loop
assigns the id of an eligible substation at minimal squared Euclidean
distance from the plant. -/
theorem busFor_spec (buses : List NetBus) (c : String) (lx ly : ℚ)
    (hne : eligibleSubs buses c ≠ []) :
    ∃ b, b ∈ eligibleSubs buses c ∧ busFor buses c (some lx) (some ly) = some b.id ∧
      ∀ b', b' ∈ eligibleSubs buses c →
        sqDist (lx, ly) (b.x, b.y) ≤ sqDist (lx, ly) (b'.x, b'.y) := by
  have hptsne : (eligibleSubs buses c).map (fun b => (b.x, b.y)) ≠ [] := by
    simpa using hne
  have hm : nearestIdx ((eligibleSubs buses c).map (fun b => (b.x, b.y))) (lx, ly)
      < (eligibleSubs buses c).length := by
    have := nearestIdx_lt _ (lx, ly) hptsne
    simpa using this
  refine ⟨(eligibleSubs buses c).get ⟨_, hm⟩, List.get_mem _ _ _, ?_, ?_⟩
  · show busAt ((eligibleSubs buses c).map NetBus.id)
        (nearestIdx ((eligibleSubs buses c).map (fun b => (b.x, b.y))) (lx, ly)) = _
    rw [busAt_of_lt _ _ (by simpa using hm)]
    simp
  · intro b' hb'
    obtain ⟨⟨j, hj⟩, rfl⟩ := List.mem_iff_get.mp hb'
    have hmin := nearestIdx_min ((eligibleSubs buses c).map (fun b => (b.x, b.y)))
      (lx, ly) j (by simpa using hj)
    rw [subsPts_getD _ _ hm, subsPts_getD _ _ hj] at hmin
    exact hmin

/-- With an empty eligible set the tree is empty, every query reports the
missing-neighbour index `0`, and the sentinel lookup yields null. -/
theorem busFor_empty (buses : List NetBus) (c : String)
    (hs : eligibleSubs buses c = []) (lon lat : Option ℚ) :
    busFor buses c lon lat = none := by
  unfold busFor
  rw [hs]
  cases lon with
  | none => rfl
  | some lx => cases lat with
    | none => rfl
    | some ly => rfl

/-- A query row with any missing coordinate reports the missing-neighbour
index `n = pts.length`. -/
theorem kdQueryIdx_missing (pts : List (ℚ × ℚ)) (lon lat : Option ℚ)
    (h : lon = none ∨ lat = none) :
    kdQueryIdx pts (lon, lat) = pts.length := by
  rcases h with h | h
  · subst h; rfl
  · subst h
    cases lon with
    | none => rfl
    | some lx => rfl

/-- A plant with a missing coordinate is assigned the null sentinel even
when eligible substations exist. -/
theorem busFor_missing (buses : List NetBus) (c : String) (lon lat : Option ℚ)
    (h : lon = none ∨ lat = none) :
    busFor buses c lon lat = none := by
  show busAt ((eligibleSubs buses c).map NetBus.id)
      (kdQueryIdx ((eligibleSubs buses c).map (fun b => (b.x, b.y))) (lon, lat)) = none
  rw [kdQueryIdx_missing _ _ _ h]
  have : ((eligibleSubs buses c).map (fun b => (b.x, b.y))).length
      = ((eligibleSubs buses c).map NetBus.id).length := by simp
  rw [this]
  exact busAt_length_self _

/-- A country with an eligible substation occurs in the network's country
list, hence the matching loop processes it. -/
theorem country_mem_network (buses : List NetBus) (c : String)
    (hne : eligibleSubs buses c ≠ []) :
    (networkCountries buses).contains c = true := by
  obtain ⟨b, hb⟩ := List.exists_mem_of_ne_nil _ hne
  rw [eligibleSubs, List.mem_filter] at hb
  have hc : b.country = c := by
    have := hb.2
    simp only [Bool.and_eq_true, beq_iff_eq] at this
    exact this.2
  have : c ∈ networkCountries buses := by
    rw [networkCountries, List.mem_dedup, List.mem_map]
    exact ⟨b, hb.1, hc⟩
  exact List.elem_iff.mpr this

/-- Shared core of the matching claims: any input row with country
processed by the loop, both coordinates present and a nonempty eligible
set ends up with the id of a distance-minimising eligible substation. -/
theorem matched_row_spec (buses : List NetBus) (ppl : List Plant) (i : Nat)
    (h1 : i < ppl.length) (lx ly : ℚ)
    (hlon : (ppl.get ⟨i, h1⟩).lon = some lx) (hlat : (ppl.get ⟨i, h1⟩).lat = some ly)
    (hne : eligibleSubs buses (ppl.get ⟨i, h1⟩).Country ≠ [])
    (h2 : i < (runMatching buses ppl).1.length) :
    ∃ b, b ∈ eligibleSubs buses (ppl.get ⟨i, h1⟩).Country ∧
      ((runMatching buses ppl).1.get ⟨i, h2⟩).bus = some b.id ∧
      ∀ b', b' ∈ eligibleSubs buses (ppl.get ⟨i, h1⟩).Country →
        sqDist (lx, ly) (b.x, b.y) ≤ sqDist (lx, ly) (b'.x, b'.y) := by
  rw [runMatching_get buses ppl i h1 h2, country_mem_network buses _ hne]
  simp only [if_true]
  obtain ⟨b, hb, heq, hmin⟩ := busFor_spec buses (ppl.get ⟨i, h1⟩).Country lx ly hne
  refine ⟨b, hb, ?_, hmin⟩
  show busFor buses (ppl.get ⟨i, h1⟩).Country (ppl.get ⟨i, h1⟩).lon (ppl.get ⟨i, h1⟩).lat
      = some b.id
  rw [hlon, hlat]
  exact heq

/-! ## Claims -/

/-- C1 (amended): for every country with at least one eligible substation,
every plant of that country *whose lon and lat are both present* ends the
matching stage with a non-null Bus that is the id of an eligible
substation of the same country.  (Plants with a missing coordinate end
with a null Bus; see the counterexample.) -/
theorem matched_bus_in_country (buses : List NetBus) (ppl : List Plant) (i : Nat)
    (h1 : i < ppl.length) (lx ly : ℚ)
    (hlon : (ppl.get ⟨i, h1⟩).lon = some lx) (hlat : (ppl.get ⟨i, h1⟩).lat = some ly)
    (hne : eligibleSubs buses (ppl.get ⟨i, h1⟩).Country ≠ [])
    (h2 : i < (runMatching buses ppl).1.length) :
    ∃ b, b ∈ eligibleSubs buses (ppl.get ⟨i, h1⟩).Country ∧
      ((runMatching buses ppl).1.get ⟨i, h2⟩).bus = some b.id ∧
      b.country = (ppl.get ⟨i, h1⟩).Country ∧ b.substation_lv = true := by
  obtain ⟨b, hb, heq, -⟩ := matched_row_spec buses ppl i h1 lx ly hlon hlat hne h2
  have hb' := hb
  rw [eligibleSubs, List.mem_filter] at hb'
  have hcond := hb'.2
  simp only [Bool.and_eq_true, beq_iff_eq] at hcond
  exact ⟨b, hb, heq, hcond.2, hcond.1⟩

/-- Witness for `matched_bus_in_country`: the French plant at (5, 45) with
present coordinates is matched to an eligible French substation. -/
theorem matched_bus_in_country_witness :
    ∃ b, b ∈ eligibleSubs [fixS1] (([fixFrPlant].get ⟨0, by decide⟩).Country) ∧
      ((runMatching [fixS1] [fixFrPlant]).1.get ⟨0, by decide⟩).bus = some b.id ∧
      b.country = ([fixFrPlant].get ⟨0, by decide⟩).Country ∧ b.substation_lv = true :=
  matched_bus_in_country [fixS1] [fixFrPlant] 0 (by decide) 5 45 rfl rfl
    (by decide) (by decide)

/-- Counterexample to C1 as stated: France has an eligible substation, yet
the French plant with missing coordinates ends the matching stage with a
null Bus. -/
theorem matched_bus_nonnull_cex :
    fixZzPlant.Country = "FR" ∧ eligibleSubs [fixS1] "FR" ≠ [] ∧
      (runMatching [fixS1] [fixZzPlant]).1.map Plant.bus = [none] := by
  refine ⟨rfl, by decide, by decide⟩

/-- C2 (amended): for every country present in the network model with zero
eligible substations, every plant of that country ends with a null Bus and
the run's bus-null warning count is positive.  (The code records no
"countries without match target" list; see the counterexample.) -/
theorem no_substation_country_bus_null (buses : List NetBus) (ppl : List Plant)
    (i : Nat) (h1 : i < ppl.length)
    (hmem : (networkCountries buses).contains (ppl.get ⟨i, h1⟩).Country = true)
    (hempty : eligibleSubs buses (ppl.get ⟨i, h1⟩).Country = [])
    (h2 : i < (runMatching buses ppl).1.length) :
    ((runMatching buses ppl).1.get ⟨i, h2⟩).bus = none
      ∧ 0 < (runMatching buses ppl).2.busNullCount := by
  have hbus : ((runMatching buses ppl).1.get ⟨i, h2⟩).bus = none := by
    rw [runMatching_get buses ppl i h1 h2, hmem]
    simp only [if_true]
    exact busFor_empty buses _ hempty _ _
  refine ⟨hbus, ?_⟩
  have hrow : (runMatching buses ppl).1.get ⟨i, h2⟩
      ∈ (runMatching buses ppl).1.filter (fun p => p.bus == none) :=
    List.mem_filter.mpr ⟨List.get_mem _ _ _, by simpa using hbus⟩
  show 0 < ((runMatching buses ppl).1.filter (fun p => p.bus == none)).length
  exact List.length_pos.mpr (List.ne_nil_of_mem hrow)

/-- Witness for `no_substation_country_bus_null`: France is in the network
via a non-eligible bus, the plant gets no bus and the count warning
fires. -/
theorem no_substation_country_bus_null_witness :
    ((runMatching [fixBusNoLv] [fixFrPlant]).1.get ⟨0, by decide⟩).bus = none
      ∧ 0 < (runMatching [fixBusNoLv] [fixFrPlant]).2.busNullCount :=
  no_substation_country_bus_null [fixBusNoLv] [fixFrPlant] 0 (by decide)
    (by decide) (by decide) (by decide)

/-- Counterexample to C2's warning clause: France has zero eligible
substations and a plant, its plant ends with a null Bus, but the complete
warning output records no country: the only per-country warning list
(countries without powerplants) is empty, and the other warning is a bare
count of unmatched plants. -/
theorem no_substation_warning_cex :
    eligibleSubs [fixBusNoLv] "FR" = []
    ∧ (networkCountries [fixBusNoLv]).contains "FR" = true
    ∧ (runMatching [fixBusNoLv] [fixFrPlant]).1.map Plant.bus = [none]
    ∧ (runMatching [fixBusNoLv] [fixFrPlant]).2.cntriesWithoutPpl = []
    ∧ (runMatching [fixBusNoLv] [fixFrPlant]).2.busNullCount = 1 := by decide

/-- C7: the assigned Bus minimises the Euclidean distance between the
substation's (x, y) and the plant's (lon, lat) over the country's eligible
substations; in particular the spec's worked example resolves to S1. -/
theorem nearest_substation_assignment :
    (∀ (buses : List NetBus) (ppl : List Plant) (i : Nat) (h1 : i < ppl.length)
        (lx ly : ℚ), (ppl.get ⟨i, h1⟩).lon = some lx → (ppl.get ⟨i, h1⟩).lat = some ly →
        eligibleSubs buses (ppl.get ⟨i, h1⟩).Country ≠ [] →
        ∀ (h2 : i < (runMatching buses ppl).1.length),
          ∃ b, b ∈ eligibleSubs buses (ppl.get ⟨i, h1⟩).Country ∧
            ((runMatching buses ppl).1.get ⟨i, h2⟩).bus = some b.id ∧
            ∀ b', b' ∈ eligibleSubs buses (ppl.get ⟨i, h1⟩).Country →
              sqDist (lx, ly) (b.x, b.y) ≤ sqDist (lx, ly) (b'.x, b'.y))
    ∧ (runMatching [fixS1, fixS2] [fixFrPlant]).1.map Plant.bus = [some "S1"] := by
  constructor
  · intro buses ppl i h1 lx ly hlon hlat hne h2
    exact matched_row_spec buses ppl i h1 lx ly hlon hlat hne h2
  · simp [runMatching, matchToSubstations, networkCountries, fixS1, fixS2, fixFrPlant,
      assignInCountry, busFor, eligibleSubs, kdQueryIdx, nearestIdx, busAt,
      List.range_succ, List.argmin_cons, List.argmin_nil, sqDist]
    norm_num

/-- Witness for `nearest_substation_assignment`: its universal part applied
to the worked example's tables. -/
theorem nearest_substation_assignment_witness :
    ∃ b, b ∈ eligibleSubs [fixS1, fixS2] (([fixFrPlant].get ⟨0, by decide⟩).Country) ∧
      ((runMatching [fixS1, fixS2] [fixFrPlant]).1.get ⟨0, by decide⟩).bus = some b.id ∧
      ∀ b', b' ∈ eligibleSubs [fixS1, fixS2] (([fixFrPlant].get ⟨0, by decide⟩).Country) →
        sqDist (5, 45) (b.x, b.y) ≤ sqDist (5, 45) (b'.x, b'.y) :=
  nearest_substation_assignment.1 [fixS1, fixS2] [fixFrPlant] 0 (by decide) 5 45
    rfl rfl (by decide) (by decide)

/-- C9: a plant with a missing lon or lat is assigned a null Bus even when
its country has eligible substations: the query reports the
missing-neighbour index, which lands exactly on the null sentinel appended
past the end of the id list (still in range, so no out-of-range access). -/
theorem missing_coords_null_bus (buses : List NetBus) (ppl : List Plant) (i : Nat)
    (h1 : i < ppl.length)
    (hmiss : (ppl.get ⟨i, h1⟩).lon = none ∨ (ppl.get ⟨i, h1⟩).lat = none)
    (hne : eligibleSubs buses (ppl.get ⟨i, h1⟩).Country ≠ [])
    (h2 : i < (runMatching buses ppl).1.length) :
    kdQueryIdx ((eligibleSubs buses (ppl.get ⟨i, h1⟩).Country).map (fun b => (b.x, b.y)))
        ((ppl.get ⟨i, h1⟩).lon, (ppl.get ⟨i, h1⟩).lat)
      = ((eligibleSubs buses (ppl.get ⟨i, h1⟩).Country).map NetBus.id).length
    ∧ ((eligibleSubs buses (ppl.get ⟨i, h1⟩).Country).map NetBus.id).length
        < ((((eligibleSubs buses (ppl.get ⟨i, h1⟩).Country).map NetBus.id).map some)
            ++ [none]).length
    ∧ ((runMatching buses ppl).1.get ⟨i, h2⟩).bus = none := by
  refine ⟨?_, by simp, ?_⟩
  · rw [kdQueryIdx_missing _ _ _ hmiss]
    simp
  · rw [runMatching_get buses ppl i h1 h2, country_mem_network buses _ hne]
    simp only [if_true]
    exact busFor_missing buses _ _ _ hmiss

/-- Witness for `missing_coords_null_bus`: the French plant with both
coordinates missing, in the presence of an eligible French substation. -/
theorem missing_coords_null_bus_witness :
    kdQueryIdx ((eligibleSubs [fixS1] (([fixZzPlant].get ⟨0, by decide⟩).Country)).map
          (fun b => (b.x, b.y)))
        (([fixZzPlant].get ⟨0, by decide⟩).lon, ([fixZzPlant].get ⟨0, by decide⟩).lat)
      = ((eligibleSubs [fixS1] (([fixZzPlant].get ⟨0, by decide⟩).Country)).map NetBus.id).length
    ∧ ((eligibleSubs [fixS1] (([fixZzPlant].get ⟨0, by decide⟩).Country)).map NetBus.id).length
        < ((((eligibleSubs [fixS1] (([fixZzPlant].get ⟨0, by decide⟩).Country)).map
              NetBus.id).map some) ++ [none]).length
    ∧ ((runMatching [fixS1] [fixZzPlant]).1.get ⟨0, by decide⟩).bus = none :=
  missing_coords_null_bus [fixS1] [fixZzPlant] 0 (by decide) (Or.inl rfl)
    (by decide) (by decide)

/-- C3 (amended): the base-database query drops rows whose Country is
outside the network's country set (and Solar/Wind rows); custom rows are
appended without any country filter, so an out-of-set custom row does
reach the matching stage (see the counterexample). -/
theorem base_query_restricts_country (countries : List String) (ppl : List Plant)
    (p : Plant) (hp : p ∈ basePlantQuery countries ppl) :
    p.Country ∈ countries ∧ p.Fueltype ≠ "Solar" ∧ p.Fueltype ≠ "Wind" := by
  rw [basePlantQuery, List.mem_filter] at hp
  have hc := hp.2
  simp only [Bool.and_eq_true, Bool.not_eq_true', Bool.or_eq_false_iff,
    beq_eq_false_iff_ne] at hc
  exact ⟨List.elem_iff.mp hc.2, hc.1.1, hc.1.2⟩

/-- Witness for `base_query_restricts_country`: the French plant survives
the base query against countries = [FR] and satisfies the restrictions. -/
theorem base_query_restricts_country_witness :
    fixFrPlant.Country ∈ ["FR"] ∧ fixFrPlant.Fueltype ≠ "Solar"
      ∧ fixFrPlant.Fueltype ≠ "Wind" :=
  base_query_restricts_country ["FR"] [fixFrPlant, fixXxPlant] fixFrPlant (by decide)

/-- Counterexample to C3 as stated: a custom row with Country "XX" outside
the network's country set is appended unfiltered by
`add_custom_powerplants` and is still present (untouched) after the
matching stage. -/
theorem custom_rows_bypass_country_cex :
    (add_custom_powerplants .all [] [(0, fixXxPlant)]).toOption = some [(0, fixXxPlant)]
    ∧ fixXxPlant.Country ∉ ["FR"]
    ∧ (runMatching [fixS1] [fixXxPlant]).1.map Plant.Country = ["XX"] := by decide

/-- C4: the nuclear correction stage is idempotent: reapplying it to its
own output leaves every row (in particular every DateIn and Capacity
value) unchanged. -/
theorem correct_nuclear_idempotent (ppl : List Plant) :
    (correct_nuclear_data (correct_nuclear_data ppl).1).1 = (correct_nuclear_data ppl).1 := by
  show (ppl.map correctRow).map correctRow = ppl.map correctRow
  have h : correctRow ∘ correctRow = correctRow := funext correctRow_idem
  rw [List.map_map, h]

/-- C5 (amended): with custom records enabled, the append never raises:
`ignore_index=True` resets row identity to a fresh range before
`verify_integrity` looks at it, so the merged table always exists and its
identities are duplicate-free — colliding input identities are renumbered,
not rejected (see the counterexample). -/
theorem append_resets_identity (cfg : CustomConfig)
    (hcfg : cfg ≠ CustomConfig.disabled) (base custom : List (Nat × Plant)) :
    ∃ t, add_custom_powerplants cfg base custom = .ok t
      ∧ (t.map Prod.fst).Nodup ∧ t.map Prod.fst = List.range t.length := by
  cases cfg with
  | disabled => exact absurd rfl hcfg
  | all =>
      refine ⟨_, appendIgnoreIndex_ok base custom, ?_, ?_⟩
      · rw [reindex_fst]; exact List.nodup_range _
      · rw [reindex_fst, reindex_length]
  | query f =>
      refine ⟨_, appendIgnoreIndex_ok base _, ?_, ?_⟩
      · rw [reindex_fst]; exact List.nodup_range _
      · rw [reindex_fst, reindex_length]

/-- Witness for `append_resets_identity`: base and custom rows that share
the input identity 7 merge fine. -/
theorem append_resets_identity_witness :
    ∃ t, add_custom_powerplants .all [(7, fixFrPlant)] [(7, fixXxPlant)] = .ok t
      ∧ (t.map Prod.fst).Nodup ∧ t.map Prod.fst = List.range t.length :=
  append_resets_identity .all (fun h => CustomConfig.noConfusion h)
    [(7, fixFrPlant)] [(7, fixXxPlant)]

/-- Counterexample to C5 as stated: two rows with the colliding identity 7
do not make the merge raise; it succeeds with identities renumbered to
0, 1. -/
theorem append_collision_no_raise_cex :
    (add_custom_powerplants .all [(7, fixFrPlant)] [(7, fixXxPlant)]).toOption
      = some [(0, fixFrPlant), (1, fixXxPlant)] := by decide

/-- C6: a correction entry matching no nuclear row yields a warning naming
it and leaves every nuclear row's value unchanged; a matching entry
overwrites the target field with the entry's value; in particular the
Fessenheim capacity entry zeroes the capacity of "Fessenheim Unit 1". -/
theorem nuclear_correction_entry_spec :
    (∀ (ppl : List Plant) (e : String × Int), e ∈ YearCommercial →
        (∀ p, p ∈ ppl → p.Fueltype = "Nuclear" → nameMatches e.1 p.Name = false) →
        notFoundMsg e.1 ∈ (correct_nuclear_data ppl).2
          ∧ ∀ p d, p ∈ ppl → p.Fueltype = "Nuclear" → yearStep p.Name d e = d)
    ∧ (∀ (ppl : List Plant) (e : String × ℚ), e ∈ CapacityTable →
        (∀ p, p ∈ ppl → p.Fueltype = "Nuclear" → nameMatches e.1 p.Name = false) →
        notFoundMsg e.1 ∈ (correct_nuclear_data ppl).2
          ∧ ∀ p c, p ∈ ppl → p.Fueltype = "Nuclear" → capStep p.Name c e = c)
    ∧ (∀ (nm : String) (d : Option Int) (e : String × Int),
        nameMatches e.1 nm = true → yearStep nm d e = some e.2)
    ∧ (∀ (nm : String) (c : ℚ) (e : String × ℚ),
        nameMatches e.1 nm = true → capStep nm c e = e.2)
    ∧ (correct_nuclear_data [fixFessPlant]).1.map Plant.Capacity = [0] := by
  have hany : ∀ (ppl : List Plant) (s : String),
      (∀ p, p ∈ ppl → p.Fueltype = "Nuclear" → nameMatches s p.Name = false) →
      ((ppl.filter (fun p => p.Fueltype == "Nuclear")).map Plant.Name).any
        (fun nm => nameMatches s nm) = false := by
    intro ppl s hno
    rw [List.any_eq_false]
    intro nm hnm
    rw [List.mem_map] at hnm
    obtain ⟨p, hpf, rfl⟩ := hnm
    rw [List.mem_filter] at hpf
    simp [hno p hpf.1 (by simpa using hpf.2)]
  refine ⟨?_, ?_, ?_, ?_, by decide⟩
  · intro ppl e he hno
    refine ⟨?_, ?_⟩
    · simp only [correct_nuclear_data, nuclearWarnings]
      exact List.mem_append_left _
        (List.mem_map_of_mem _ (List.mem_filter.mpr ⟨he, by simp [hany ppl e.1 hno]⟩))
    · intro p d hp hnuc
      simp [yearStep, hno p hp hnuc]
  · intro ppl e he hno
    refine ⟨?_, ?_⟩
    · simp only [correct_nuclear_data, nuclearWarnings]
      exact List.mem_append_right _
        (List.mem_map_of_mem _ (List.mem_filter.mpr ⟨he, by simp [hany ppl e.1 hno]⟩))
    · intro p c hp hnuc
      simp [capStep, hno p hp hnuc]
  · intro nm d e h
    simp [yearStep, h]
  · intro nm c e h
    simp [capStep, h]

/-- Witness for `nuclear_correction_entry_spec`: the Brokdorf capacity
entry matches no row of a table holding only "Zzz Station", so its warning
is emitted and its step leaves values unchanged; the Fessenheim entry
matches "Fessenheim Unit 1" and overwrites with 0. -/
theorem nuclear_correction_entry_spec_witness :
    notFoundMsg "Brokdorf" ∈ (correct_nuclear_data [fixZzPlant]).2
      ∧ capStep fixZzPlant.Name 100 ("Brokdorf", 0) = 100
      ∧ capStep fixFessPlant.Name 880 ("Fessenheim", 0) = 0 := by
  have h := nuclear_correction_entry_spec.2.1 [fixZzPlant] ("Brokdorf", 0)
    (by decide) (by decide)
  exact ⟨h.1, h.2 fixZzPlant 100 (by decide) rfl,
    nuclear_correction_entry_spec.2.2.2.1 fixFessPlant.Name 880 ("Fessenheim", 0) (by decide)⟩

/-- C8: the matching stage is deterministic: identical input tables give
identical matched tables and identical warnings. -/
theorem matching_deterministic (b1 b2 : List NetBus) (p1 p2 : List Plant)
    (hb : b1 = b2) (hp : p1 = p2) :
    runMatching b1 p1 = runMatching b2 p2 := by
  rw [hb, hp]

/-- Witness for `matching_deterministic`. -/
theorem matching_deterministic_witness :
    runMatching [fixS1] [fixZzPlant] = runMatching [fixS1] [fixZzPlant] :=
  matching_deterministic [fixS1] [fixS1] [fixZzPlant] [fixZzPlant] rfl rfl

/-- C10: the nuclear correction stage only ever writes the DateIn and
Capacity fields of nuclear rows: every other field of every row is
preserved, and non-nuclear rows are returned verbatim. -/
theorem correct_nuclear_frame (ppl : List Plant) (i : Nat) (h1 : i < ppl.length)
    (h2 : i < ((correct_nuclear_data ppl).1).length) :
    (((correct_nuclear_data ppl).1.get ⟨i, h2⟩).Name = (ppl.get ⟨i, h1⟩).Name
      ∧ ((correct_nuclear_data ppl).1.get ⟨i, h2⟩).Fueltype = (ppl.get ⟨i, h1⟩).Fueltype
      ∧ ((correct_nuclear_data ppl).1.get ⟨i, h2⟩).Country = (ppl.get ⟨i, h1⟩).Country
      ∧ ((correct_nuclear_data ppl).1.get ⟨i, h2⟩).lon = (ppl.get ⟨i, h1⟩).lon
      ∧ ((correct_nuclear_data ppl).1.get ⟨i, h2⟩).lat = (ppl.get ⟨i, h1⟩).lat
      ∧ ((correct_nuclear_data ppl).1.get ⟨i, h2⟩).bus = (ppl.get ⟨i, h1⟩).bus)
    ∧ ((ppl.get ⟨i, h1⟩).Fueltype ≠ "Nuclear" →
        (correct_nuclear_data ppl).1.get ⟨i, h2⟩ = ppl.get ⟨i, h1⟩) := by
  have key : (correct_nuclear_data ppl).1.get ⟨i, h2⟩ = correctRow (ppl.get ⟨i, h1⟩) := by
    show (ppl.map correctRow).get ⟨i, h2⟩ = _
    simp [List.get_eq_getElem]
  rw [key]
  set p := ppl.get ⟨i, h1⟩ with hp
  by_cases h : p.Fueltype = "Nuclear"
  · refine ⟨?_, fun hne => absurd h hne⟩
    simp [correctRow, h]
  · have hid : correctRow p = p := by
      simp [correctRow, h]
    rw [hid]
    exact ⟨⟨rfl, rfl, rfl, rfl, rfl, rfl⟩, fun _ => rfl⟩

/-- Witness for `correct_nuclear_frame`: the non-nuclear French coal plant
passes through the correction stage verbatim. -/
theorem correct_nuclear_frame_witness :
    (((correct_nuclear_data [fixFrPlant]).1.get ⟨0, by decide⟩).Name
        = ([fixFrPlant].get ⟨0, by decide⟩).Name
      ∧ ((correct_nuclear_data [fixFrPlant]).1.get ⟨0, by decide⟩).Fueltype
        = ([fixFrPlant].get ⟨0, by decide⟩).Fueltype
      ∧ ((correct_nuclear_data [fixFrPlant]).1.get ⟨0, by decide⟩).Country
        = ([fixFrPlant].get ⟨0, by decide⟩).Country
      ∧ ((correct_nuclear_data [fixFrPlant]).1.get ⟨0, by decide⟩).lon
        = ([fixFrPlant].get ⟨0, by decide⟩).lon
      ∧ ((correct_nuclear_data [fixFrPlant]).1.get ⟨0, by decide⟩).lat
        = ([fixFrPlant].get ⟨0, by decide⟩).lat
      ∧ ((correct_nuclear_data [fixFrPlant]).1.get ⟨0, by decide⟩).bus
        = ([fixFrPlant].get ⟨0, by decide⟩).bus)
    ∧ (([fixFrPlant].get ⟨0, by decide⟩).Fueltype ≠ "Nuclear" →
        (correct_nuclear_data [fixFrPlant]).1.get ⟨0, by decide⟩
          = [fixFrPlant].get ⟨0, by decide⟩) :=
  correct_nuclear_frame [fixFrPlant] 0 (by decide) (by decide)

end BuildPowerplants
